import Mathlib

/- Shallow embedding of the node-pool resource pool (lib/Pool.js).

The pool instance keeps three queues (`_available`, `_active`, `_waiting`),
per-instance configuration, the per-instance wrapper counter `_clientId`, the
process-wide counter `Pool.client_id`, and the idle-reaper bookkeeping
(`_removingIdle` plus whether a `setTimeout` is currently pending).

Conventions of the embedding:
- time is in milliseconds (`Nat`); connections (the opaque resources handed out
  by the factory) are identified by `Nat`;
- caller continuations are identified by `Nat`; invoking one is recorded as an
  `Event`;
- factory callbacks run synchronously: the k-th `create` call either yields a
  resource object (`some obj`) or reports an error invoking its callback with
  no client (`none`); `destroy` always succeeds and is recorded as an event;
- an uncaught JavaScript exception (ReferenceError / TypeError) aborts the rest
  of the operation; it is modelled by the `crashed` flag of `OpResult`, with
  the state and events as they were at the moment of the throw. -/

abbrev Time := Nat

/-- `MAX_CLIENT_ID` from lib/Pool.js. -/
def MAX_CLIENT_ID : Nat := 1000000

/-- The wrapper built by `_addToPool`:
`{ connection : ..., timeout : now + idleTimeout, id : clientId++ }`. -/
structure Client where
  connection : Nat
  timeout : Nat
  id : Nat
deriving DecidableEq

/-- A resource object returned by the factory `create`: its connection
identity, whether it already carries an `id` property, and that id. -/
structure JsObj where
  conn : Nat
  hasId : Bool
  id : Nat
deriving DecidableEq

/-- The mutable state of one pool instance, plus the process-wide
`Pool.client_id` counter (`gClientId`) and a counter of how many factory
`create` calls were issued so far (`createCalls`, used to index the factory
model).  `timerPending` records whether an idle-reap `setTimeout` is armed. -/
structure PoolState where
  available : List Client
  active : List Nat
  waiting : List Nat
  idleTimeout : Nat
  max : Option Nat
  min : Nat
  reapInterval : Nat
  clientId : Nat
  gClientId : Nat
  createCalls : Nat
  draining : Bool
  removingIdle : Bool
  timerPending : Bool
deriving DecidableEq

/-- The external factory: result of the k-th `create` call.  `none` means the
factory invoked its callback with an error and no client. -/
structure Env where
  create : Nat → Option JsObj

/-- Observable effects of one pool operation. -/
inductive Event where
  | dispatched (cb : Nat) (conn : Nat)
  | errored (cb : Nat)
  | releasedCb (cb : Nat) (clientId : Nat)
  | destroyedConn (conn : Nat)
deriving DecidableEq

/-- Result of one synchronous pool operation: the state it leaves behind, the
continuation invocations / destroys it performed (in order), and whether an
uncaught exception escaped. -/
structure OpResult where
  state : PoolState
  events : List Event
  crashed : Bool
deriving DecidableEq

/-- `availableCount()`. -/
def availableCount (s : PoolState) : Nat := s.available.length

/-- `activeCount()`. -/
def activeCount (s : PoolState) : Nat := s.active.length

/-- `totalCount()`. -/
def totalCount (s : PoolState) : Nat := s.available.length + s.active.length

/-- `waitingCount()`. -/
def waitingCount (s : PoolState) : Nat := s.waiting.length

/-- The continuation an event is delivered to, if any. -/
def eventTarget : Event → Option Nat
  | .dispatched cb _ => some cb
  | .errored cb => some cb
  | .releasedCb cb _ => some cb
  | .destroyedConn _ => none

/-- `_checkTimeout(client, callback)`: the callback receives
`(timeLeft < 1) && (this._available.length > this._min)` where
`timeLeft = client.timeout - now`.  `availLen` is the value of
`this._available.length` at the moment of the call. -/
def checkTimeout (availLen minv : Nat) (c : Client) (now : Time) : Bool :=
  decide (c.timeout < now + 1) && decide (minv < availLen)

/-- `(Pool.client_id < MAX_CLIENT_ID) ? Pool.client_id++ : 1` on the
process-wide counter: yields the assigned id and the new counter value. -/
def newClientId (g : Nat) : Nat × Nat :=
  if g < MAX_CLIENT_ID then (g, g + 1) else (1, g)

/-- The body of `_createClient`'s callback for a successfully created `client`:
`if (!client.hasOwnProperty('id')) client.id = ...` drawing from the shared
`Pool.client_id` counter. -/
def createClientAssign (g : Nat) (obj : JsObj) : JsObj × Nat :=
  if obj.hasId then (obj, g)
  else
    let p := newClientId g
    ({ obj with hasId := true, id := p.1 }, p.2)

/-- `_startRemoveIdleInterval()`: no-op when `_removingIdle` is already set or
nothing is available; otherwise sets `_removingIdle` and arms the timer. -/
def startRemoveIdleInterval (s : PoolState) : PoolState :=
  if s.removingIdle || decide (s.available.length < 1) then s
  else { s with removingIdle := true, timerPending := true }

/-- `_stopRemoveIdleInterval()`. -/
def stopRemoveIdleInterval (s : PoolState) : PoolState :=
  if !s.removingIdle then s
  else { s with removingIdle := false, timerPending := false }

/-- `_addToPool(connection, callback)`: wrap the connection with a fresh expiry
`now + idleTimeout` and the next per-instance wrapper id, push it to the back
of `_available`, start the idle reaper; yields the new wrapper as well. -/
def addToPool (s : PoolState) (conn : Nat) (now : Time) : PoolState × Client :=
  let c : Client := { connection := conn, timeout := now + s.idleTimeout, id := s.clientId }
  (startRemoveIdleInterval { s with available := s.available ++ [c], clientId := s.clientId + 1 }, c)

/-- The creation branch of `acquire`: `_createClient` invokes the factory.  On
factory error the callback body evaluates `client.hasOwnProperty('id')` with
`client` undefined, throwing a TypeError before any continuation is invoked.
On success the id is assigned from `Pool.client_id` if missing and `_dispense`
pushes the client to `_active` and calls the caller back. -/
def acquireCreate (env : Env) (s : PoolState) (cb : Nat) : OpResult :=
  match env.create s.createCalls with
  | none =>
    ⟨{ s with createCalls := s.createCalls + 1 }, [], true⟩
  | some obj =>
    let p := createClientAssign s.gClientId obj
    ⟨{ s with
        createCalls := s.createCalls + 1
        gClientId := p.2
        active := s.active ++ [p.1.conn] },
      [Event.dispatched cb p.1.conn], false⟩

/-- `acquire(callback)`.  When the popped head is stale, `_removeFromPool`
destroys its connection and then splices at `indexOf(client) = -1` (the client
was already shifted off), which removes the **last** remaining available
wrapper; the subsequent `self.acquire(isInternal, callback)` throws a
ReferenceError because `isInternal` is not declared anywhere in scope. -/
def acquireModel (env : Env) (s : PoolState) (now : Time) (cb : Nat) : OpResult :=
  if s.draining then ⟨s, [Event.errored cb], false⟩
  else
    match s.available with
    | c :: rest =>
      if checkTimeout rest.length s.min c now then
        ⟨{ s with available := rest.dropLast }, [Event.destroyedConn c.connection], true⟩
      else
        ⟨{ s with available := rest, active := s.active ++ [c.connection] },
          [Event.dispatched cb c.connection], false⟩
    | [] =>
      match s.max with
      | some m =>
        if 0 < m ∧ m ≤ totalCount s then ⟨{ s with waiting := s.waiting ++ [cb] }, [], false⟩
        else acquireCreate env s cb
      | none => acquireCreate env s cb

/-- `release`'s optional own callback `callback(null, client)`. -/
def releaseCbEvents : Option Nat → Client → List Event
  | none, _ => []
  | some cb, c => [Event.releasedCb cb c.id]

/-- The continuation inside `_addToPool`'s callback during `release`: shift the
oldest waiter (if any) and re-invoke `acquire` on its behalf, then invoke the
optional release callback — unless the nested `acquire` threw. -/
def releaseCore (env : Env) (s2 : PoolState) (c : Client) (cbOpt : Option Nat) (now : Time) : OpResult :=
  match s2.waiting with
  | [] => ⟨s2, releaseCbEvents cbOpt c, false⟩
  | w :: ws =>
    let r := acquireModel env { s2 with waiting := ws } now w
    if r.crashed then r
    else ⟨r.state, r.events ++ releaseCbEvents cbOpt c, false⟩

/-- `release(connection, callback)`: silent no-op when the connection is not in
`_active`; otherwise remove it from `_active`, re-wrap it into `_available`
via `_addToPool`, and run the waiter-promotion continuation. -/
def releaseModel (env : Env) (s : PoolState) (conn : Nat) (now : Time) (cbOpt : Option Nat) : OpResult :=
  if s.active.contains conn then
    let pc := addToPool { s with active := s.active.erase conn } conn now
    releaseCore env pc.1 pc.2 cbOpt now
  else ⟨s, [], false⟩

/-- One firing of the `setTimeout` armed by `_startRemoveIdleInterval` (the
pending timer is consumed).  If `available.length <= min` the code calls
`_startRemoveIdleInterval()` again, but `_removingIdle` is still `true` so
that call returns without arming a new timer.  Otherwise every available
client whose expiry has passed is collected (`_checkTimeout` reads the full,
still unshrunk `_available.length` for each candidate), each collected client
is destroyed and spliced out, and only then is `_removingIdle` cleared and the
timer re-armed. -/
def reapTick (s : PoolState) (now : Time) : PoolState × List Event :=
  let s0 : PoolState := { s with timerPending := false }
  if s0.available.length ≤ s0.min then
    (startRemoveIdleInterval s0, [])
  else
    let isStale := fun (c : Client) => checkTimeout s0.available.length s0.min c now
    let s1 : PoolState := { s0 with available := s0.available.filter (fun c => !(isStale c)) }
    (startRemoveIdleInterval { s1 with removingIdle := false },
      (s0.available.filter isStale).map (fun c => Event.destroyedConn c.connection))

/-- `drain(callback)`: set `_draining`, stop the reaper, destroy every
available connection and clear `_available`, destroy every active connection
and clear `_active`, reset `_draining`, and signal completion.  `_waiting` is
never touched. -/
def drainModel (s : PoolState) : PoolState × List Event :=
  let s0 := stopRemoveIdleInterval { s with draining := true }
  ({ s0 with available := [], active := [], draining := false },
    s.available.map (fun c => Event.destroyedConn c.connection)
      ++ s.active.map (fun conn => Event.destroyedConn conn))

/-- Outcome of `Pool(options, callback)` construction: either the constructor
continuation is invoked (`callback(err, self)`; the code only ever calls it as
`callback(null, self)`), or an exception escaped to the constructor's caller
(`if (error) throw error` inside a warm-up task) and the continuation never
runs. -/
inductive InitOutcome where
  | cbCalled (err : Option Nat) (s : PoolState)
  | thrown (k : Nat)
deriving DecidableEq

/-- Did construction end in an escaped exception? -/
def InitOutcome.isThrown : InitOutcome → Bool
  | .thrown _ => true
  | _ => false

/-- Was the constructor continuation invoked with a non-null error? -/
def initErrDelivered : InitOutcome → Bool
  | .cbCalled (some _) _ => true
  | _ => false

/-- The recognized pool options (after the `||`-defaulting in the
constructor: `idleTimeout || 3000`, `max || null`, `min || 0`,
`reapInterval || 1000`). -/
structure Options where
  idleTimeout : Nat
  max : Option Nat
  min : Nat
  reapInterval : Nat

/-- The freshly built instance object, before `init` runs. -/
def PoolState.fresh (o : Options) : PoolState :=
  { available := [], active := [], waiting := []
    idleTimeout := o.idleTimeout, max := o.max, min := o.min
    reapInterval := o.reapInterval, clientId := 1, gClientId := 1, createCalls := 0
    draining := false, removingIdle := false, timerPending := false }

/-- The warm-up tasks of `init`: `n` remaining `_create` calls, each feeding
`_addToPool` on success and throwing its error otherwise.  With synchronous
factory callbacks `async.parallel` runs the tasks in order and a throw aborts
everything, reaching the constructor's caller. -/
def initGo (env : Env) (now : Time) : Nat → PoolState → InitOutcome
  | 0, s => InitOutcome.cbCalled none s
  | n + 1, s =>
    match env.create s.createCalls with
    | none => InitOutcome.thrown s.createCalls
    | some obj =>
      initGo env now n (addToPool { s with createCalls := s.createCalls + 1 } obj.conn now).1

/-- `init(callback)` on a fresh instance: run `min` warm-up creations, then
`callback(null, self)`. -/
def initModel (env : Env) (now : Time) (o : Options) : InitOutcome :=
  initGo env now o.min (PoolState.fresh o)

/-- A caller-driven pool operation. -/
inductive Op where
  | acquire (cb : Nat) (now : Time)
  | release (conn : Nat) (now : Time)
deriving DecidableEq

/-- The state reached after one caller operation (events discarded). -/
def stepOp (env : Env) (s : PoolState) : Op → PoolState
  | .acquire cb now => (acquireModel env s now cb).state
  | .release conn now => (releaseModel env s conn now none).state

/-- The state reached after a sequence of caller operations. -/
def runOps (env : Env) (s : PoolState) (ops : List Op) : PoolState :=
  ops.foldl (stepOp env) s

/-- A factory whose every `create` reports an error (callback with no client). -/
def envNone : Env := ⟨fun _ => none⟩

/-- A factory whose k-th `create` yields a bare resource without an `id`. -/
def envObjs : Env := ⟨fun k => some { conn := 100 + k, hasId := false, id := 0 }⟩

/-- A convenient default instance (all queues empty, default options). -/
def baseState : PoolState :=
  { available := [], active := [], waiting := []
    idleTimeout := 3000, max := none, min := 0, reapInterval := 1000
    clientId := 1, gClientId := 1, createCalls := 0
    draining := false, removingIdle := false, timerPending := false }

/-- min 1 with two expired available clients and an armed reap timer. -/
def sC2a : PoolState :=
  { baseState with available := [⟨10, 0, 1⟩, ⟨11, 0, 2⟩], min := 1, clientId := 3, removingIdle := true, timerPending := true }

/-- min 1 with one (expired) available client and an armed reap timer. -/
def sC2b : PoolState :=
  { baseState with available := [⟨10, 0, 1⟩], min := 1, clientId := 2, removingIdle := true, timerPending := true }

/-- min 0 with a stale head client followed by a fresh one. -/
def sC4 : PoolState :=
  { baseState with available := [⟨11, 0, 1⟩, ⟨12, 100, 2⟩], clientId := 3, removingIdle := true, timerPending := true }

/-- An empty available queue with one checked-out connection. -/
def sC6 : PoolState :=
  { baseState with active := [3] }

/-- min 1 with one fresh available client and an armed reap timer. -/
def sC9 : PoolState :=
  { baseState with available := [⟨10, 9999, 1⟩], min := 1, clientId := 2, removingIdle := true, timerPending := true }

/-- A pool at its cap: max 1, one active connection, nothing available. -/
def sW3 : PoolState :=
  { baseState with active := [4], max := some 1 }

/-- One active connection with two queued waiters. -/
def sW5 : PoolState :=
  { baseState with active := [9], waiting := [21, 22] }

/-- Two active connections; 99 is foreign to the pool. -/
def sW8 : PoolState :=
  { baseState with active := [1, 2] }

/-- Options with min 2 (idleTimeout, max, reapInterval at their defaults). -/
def oW7 : Options := ⟨3000, none, 2, 1000⟩

/-- A factory-returned resource without an `id` property. -/
def objNoId : JsObj := ⟨5, false, 0⟩

/-- Another factory-returned resource without an `id` property. -/
def objNoId2 : JsObj := ⟨6, false, 0⟩

/- ===================== helper lemmas ===================== -/

@[simp] theorem startRII_available (s : PoolState) :
    (startRemoveIdleInterval s).available = s.available := by
  unfold startRemoveIdleInterval; split <;> rfl

@[simp] theorem startRII_active (s : PoolState) :
    (startRemoveIdleInterval s).active = s.active := by
  unfold startRemoveIdleInterval; split <;> rfl

@[simp] theorem startRII_waiting (s : PoolState) :
    (startRemoveIdleInterval s).waiting = s.waiting := by
  unfold startRemoveIdleInterval; split <;> rfl

@[simp] theorem startRII_draining (s : PoolState) :
    (startRemoveIdleInterval s).draining = s.draining := by
  unfold startRemoveIdleInterval; split <;> rfl

@[simp] theorem startRII_max (s : PoolState) :
    (startRemoveIdleInterval s).max = s.max := by
  unfold startRemoveIdleInterval; split <;> rfl

@[simp] theorem startRII_min (s : PoolState) :
    (startRemoveIdleInterval s).min = s.min := by
  unfold startRemoveIdleInterval; split <;> rfl

@[simp] theorem startRII_idleTimeout (s : PoolState) :
    (startRemoveIdleInterval s).idleTimeout = s.idleTimeout := by
  unfold startRemoveIdleInterval; split <;> rfl

@[simp] theorem startRII_clientId (s : PoolState) :
    (startRemoveIdleInterval s).clientId = s.clientId := by
  unfold startRemoveIdleInterval; split <;> rfl

@[simp] theorem startRII_gClientId (s : PoolState) :
    (startRemoveIdleInterval s).gClientId = s.gClientId := by
  unfold startRemoveIdleInterval; split <;> rfl

@[simp] theorem startRII_createCalls (s : PoolState) :
    (startRemoveIdleInterval s).createCalls = s.createCalls := by
  unfold startRemoveIdleInterval; split <;> rfl

@[simp] theorem stopRII_available (s : PoolState) :
    (stopRemoveIdleInterval s).available = s.available := by
  unfold stopRemoveIdleInterval; split <;> rfl

@[simp] theorem stopRII_active (s : PoolState) :
    (stopRemoveIdleInterval s).active = s.active := by
  unfold stopRemoveIdleInterval; split <;> rfl

@[simp] theorem stopRII_waiting (s : PoolState) :
    (stopRemoveIdleInterval s).waiting = s.waiting := by
  unfold stopRemoveIdleInterval; split <;> rfl

@[simp] theorem stopRII_draining (s : PoolState) :
    (stopRemoveIdleInterval s).draining = s.draining := by
  unfold stopRemoveIdleInterval; split <;> rfl

@[simp] theorem addToPool_fst_available (s : PoolState) (conn : Nat) (now : Time) :
    (addToPool s conn now).1.available
      = s.available ++ [{ connection := conn, timeout := now + s.idleTimeout, id := s.clientId }] := by
  simp [addToPool]

@[simp] theorem addToPool_fst_active (s : PoolState) (conn : Nat) (now : Time) :
    (addToPool s conn now).1.active = s.active := by
  simp [addToPool]

@[simp] theorem addToPool_fst_waiting (s : PoolState) (conn : Nat) (now : Time) :
    (addToPool s conn now).1.waiting = s.waiting := by
  simp [addToPool]

@[simp] theorem addToPool_fst_draining (s : PoolState) (conn : Nat) (now : Time) :
    (addToPool s conn now).1.draining = s.draining := by
  simp [addToPool]

@[simp] theorem addToPool_fst_max (s : PoolState) (conn : Nat) (now : Time) :
    (addToPool s conn now).1.max = s.max := by
  simp [addToPool]

@[simp] theorem addToPool_fst_min (s : PoolState) (conn : Nat) (now : Time) :
    (addToPool s conn now).1.min = s.min := by
  simp [addToPool]

@[simp] theorem addToPool_fst_idleTimeout (s : PoolState) (conn : Nat) (now : Time) :
    (addToPool s conn now).1.idleTimeout = s.idleTimeout := by
  simp [addToPool]

@[simp] theorem addToPool_fst_clientId (s : PoolState) (conn : Nat) (now : Time) :
    (addToPool s conn now).1.clientId = s.clientId + 1 := by
  simp [addToPool]

@[simp] theorem addToPool_fst_gClientId (s : PoolState) (conn : Nat) (now : Time) :
    (addToPool s conn now).1.gClientId = s.gClientId := by
  simp [addToPool]

@[simp] theorem addToPool_fst_createCalls (s : PoolState) (conn : Nat) (now : Time) :
    (addToPool s conn now).1.createCalls = s.createCalls := by
  simp [addToPool]

@[simp] theorem addToPool_snd (s : PoolState) (conn : Nat) (now : Time) :
    (addToPool s conn now).2
      = { connection := conn, timeout := now + s.idleTimeout, id := s.clientId } := by
  simp [addToPool]

/- ===================== claim theorems ===================== -/

/-- Claim C1: after `drain(callback)` completes, `availableCount`,
`activeCount` and `totalCount` are all zero, the `draining` flag is false
again, and the waiting queue is untouched, so `waitingCount` is unchanged —
for every prior pool state (idle, active, or mixed). -/
theorem drain_clears_pool (s : PoolState) :
    availableCount (drainModel s).1 = 0 ∧
    activeCount (drainModel s).1 = 0 ∧
    totalCount (drainModel s).1 = 0 ∧
    (drainModel s).1.draining = false ∧
    (drainModel s).1.waiting = s.waiting ∧
    waitingCount (drainModel s).1 = waitingCount s := by
  simp [drainModel, availableCount, activeCount, totalCount, waitingCount]

/-- Claim C2 (counterexample): with `min = 1` and two expired available
clients, a reaper tick destroys and removes both, leaving `availableCount`
strictly below `min` even though it was at or above `min` before the tick. -/
theorem reap_below_min_refuted :
    sC2a.min ≤ availableCount sC2a ∧
    availableCount (reapTick sC2a 5).1 < sC2a.min := by decide

/-- Claim C2 (amended): a tick that starts with `available.length <= min`
removes and destroys nothing; otherwise the tick destroys and removes every
available client whose idle expiry has passed (each `_checkTimeout` call
compares `min` against the full scan-time length, which stays above `min`
throughout the scan), even when that leaves fewer than `min` available. -/
theorem reap_tick_removes_every_expired (s : PoolState) (now : Time) :
    (s.available.length ≤ s.min →
        (reapTick s now).1.available = s.available ∧ (reapTick s now).2 = []) ∧
    (s.min < s.available.length →
        (reapTick s now).1.available
          = s.available.filter (fun c => !(checkTimeout s.available.length s.min c now)) ∧
        (reapTick s now).2
          = (s.available.filter (fun c => checkTimeout s.available.length s.min c now)).map
              (fun c => Event.destroyedConn c.connection)) := by
  constructor
  · intro h
    simp only [reapTick]
    rw [if_pos (by simpa using h)]
    exact ⟨by simp, rfl⟩
  · intro h
    simp only [reapTick]
    rw [if_neg (by simp; omega)]
    exact ⟨by simp, rfl⟩

theorem reap_tick_removes_every_expired_witness :
    (reapTick sC2b 5).1.available = sC2b.available ∧
    (reapTick sC2a 5).1.available
      = sC2a.available.filter (fun c => !(checkTimeout sC2a.available.length sC2a.min c 5)) :=
  ⟨((reap_tick_removes_every_expired sC2b 5).1 (by decide)).1,
   ((reap_tick_removes_every_expired sC2a 5).2 (by decide)).1⟩

/-- Claim C4 (code evaluated at the failing input): acquiring from a pool
whose head available client is stale does NOT retry the acquire — after
destroying the stale connection, `_removeFromPool` splices at index `-1`
(the wrapper was already shifted off), silently dropping the fresh trailing
client (connection 12) from the bookkeeping without destroying it, and the
`self.acquire(isInternal, callback)` retry throws a ReferenceError
(`isInternal` is undeclared), so the caller's continuation never receives a
resource. -/
theorem acquire_stale_head_crashes :
    acquireModel envObjs sC4 50 7
      = ⟨{ sC4 with available := [] }, [Event.destroyedConn 11], true⟩ := by decide

/-- Claim C6 (code evaluated at the failing input): when the factory `create`
reports an error (callback with no client), `_createClient` evaluates
`client.hasOwnProperty('id')` on `undefined` and throws a TypeError: the
error is never propagated to the acquiring caller's continuation (no event is
emitted), though the pool's counts are indeed unchanged. -/
theorem acquire_create_error_not_propagated :
    acquireModel envNone sC6 0 7 = ⟨{ sC6 with createCalls := 1 }, [], true⟩ ∧
    availableCount (acquireModel envNone sC6 0 7).state = availableCount sC6 ∧
    activeCount (acquireModel envNone sC6 0 7).state = activeCount sC6 ∧
    waitingCount (acquireModel envNone sC6 0 7).state = waitingCount sC6 := by decide

/-- Claim C9 (code evaluated at the failing input): a reaper tick that finds
`available.length <= min` does NOT re-arm the timer: the rescheduling call
`_startRemoveIdleInterval()` returns immediately because `_removingIdle` is
still true, so no timeout is pending afterwards, `_removingIdle` stays stuck
at true, and every later `_startRemoveIdleInterval` call is also a no-op —
no later tick can ever occur (until `drain` resets the flag). -/
theorem reap_tick_fails_to_reschedule :
    availableCount sC9 ≤ sC9.min ∧
    (reapTick sC9 0).1.timerPending = false ∧
    (reapTick sC9 0).1.removingIdle = true ∧
    startRemoveIdleInterval (reapTick sC9 0).1 = (reapTick sC9 0).1 := by decide

/-- Claim C8: releasing a connection that is not currently in the active set
is a silent no-op — no error, no callback invocation, no event, and the state
(all queues and counters) is exactly unchanged. -/
theorem release_unknown_resource_noop (env : Env) (s : PoolState) (conn : Nat)
    (now : Time) (cbOpt : Option Nat) (h : conn ∉ s.active) :
    releaseModel env s conn now cbOpt = ⟨s, [], false⟩ := by
  unfold releaseModel
  rw [if_neg (by simpa using h)]

theorem release_unknown_resource_noop_witness :
    releaseModel envNone sW8 99 0 none = ⟨sW8, [], false⟩ :=
  release_unknown_resource_noop envNone sW8 99 0 none (by decide)

/-- Claim C10: a factory-created resource without an `id` property is mutated
with an `id` drawn from the process-wide `Pool.client_id` counter: while the
counter is below `MAX_CLIENT_ID` (1,000,000) the resource receives the
counter's value and the counter increments; at or past the bound every such
resource receives the constant `1` and the counter stays put, so two
consecutive assignments past the bound produce equal (non-unique,
non-monotone) ids.  An object that already has an `id` is left alone.  The
creation branch of `acquire` threads exactly this assignment through the
shared counter. -/
theorem client_id_counter (g : Nat) (obj obj2 : JsObj) :
    (obj.hasId = true → createClientAssign g obj = (obj, g)) ∧
    (obj.hasId = false → g < MAX_CLIENT_ID →
        createClientAssign g obj = ({ obj with hasId := true, id := g }, g + 1)) ∧
    (obj.hasId = false → MAX_CLIENT_ID ≤ g →
        createClientAssign g obj = ({ obj with hasId := true, id := 1 }, g)) ∧
    (obj.hasId = false → obj2.hasId = false → MAX_CLIENT_ID ≤ g →
        (createClientAssign g obj).1.id
          = (createClientAssign (createClientAssign g obj).2 obj2).1.id ∧
        (createClientAssign g obj).1.id = 1) ∧
    (∀ (env : Env) (s : PoolState) (now : Time) (cb : Nat),
        s.draining = false → s.available = [] → s.max = none →
        env.create s.createCalls = some obj →
        (acquireModel env s now cb).state.gClientId = (createClientAssign s.gClientId obj).2 ∧
        (acquireModel env s now cb).state.active
          = s.active ++ [(createClientAssign s.gClientId obj).1.conn]) := by
  refine ⟨?_, ?_, ?_, ?_, ?_⟩
  · intro h
    simp [createClientAssign, h]
  · intro h hg
    simp [createClientAssign, newClientId, h, hg]
  · intro h hg
    simp [createClientAssign, newClientId, h, Nat.not_lt.mpr hg]
  · intro h h2 hg
    simp [createClientAssign, newClientId, h, h2, Nat.not_lt.mpr hg]
  · intro env s now cb hd hav hmax hc
    simp [acquireModel, acquireCreate, hd, hav, hmax, hc]

theorem client_id_counter_witness :
    createClientAssign 999999 objNoId = ({ objNoId with hasId := true, id := 999999 }, 1000000) ∧
    (createClientAssign 1000000 objNoId).1.id
      = (createClientAssign (createClientAssign 1000000 objNoId).2 objNoId2).1.id ∧
    (createClientAssign 1000000 objNoId).1.id = 1 :=
  ⟨(client_id_counter 999999 objNoId objNoId2).2.1 rfl (by decide),
   ((client_id_counter 1000000 objNoId objNoId2).2.2.2.1 rfl rfl (by decide)).1,
   ((client_id_counter 1000000 objNoId objNoId2).2.2.2.1 rfl rfl (by decide)).2⟩

theorem initGo_cbCalled (env : Env) (now : Time) :
    ∀ (n : Nat) (s : PoolState) (err : Option Nat) (s0 : PoolState),
      initGo env now n s = InitOutcome.cbCalled err s0 →
      err = none ∧ s0.available.length = s.available.length + n ∧ s0.active = s.active := by
  intro n
  induction n with
  | zero =>
    intro s err s0 h
    cases h
    exact ⟨rfl, by simp, rfl⟩
  | succ n ih =>
    intro s err s0 h
    rw [initGo] at h
    revert h
    cases hc : env.create s.createCalls with
    | none => intro h; cases h
    | some obj =>
      intro h
      obtain ⟨h1, h2, h3⟩ := ih _ _ _ h
      refine ⟨h1, ?_, by simpa using h3⟩
      simp at h2
      omega

theorem initGo_fail (env : Env) (now : Time) :
    ∀ (n : Nat) (s : PoolState),
      (∃ j, j < n ∧ env.create (s.createCalls + j) = none) →
      (initGo env now n s).isThrown = true := by
  intro n
  induction n with
  | zero =>
    rintro s ⟨j, hj, _⟩
    exact absurd hj (Nat.not_lt_zero j)
  | succ n ih =>
    rintro s ⟨j, hj, hnone⟩
    rw [initGo]
    cases hc : env.create s.createCalls with
    | none => rfl
    | some obj =>
      apply ih
      cases j with
      | zero =>
        rw [Nat.add_zero] at hnone
        rw [hc] at hnone
        cases hnone
      | succ j =>
        refine ⟨j, by omega, ?_⟩
        have he : (addToPool { s with createCalls := s.createCalls + 1 } obj.conn now).1.createCalls
            = s.createCalls + 1 := by simp
        rw [he]
        have harith : s.createCalls + 1 + j = s.createCalls + (j + 1) := by omega
        rw [harith]
        exact hnone

/-- Claim C7 (counterexample): with `min = 2` and a factory whose first
creation fails, the warm-up error is thrown (it escapes to the constructor's
caller); the constructor's continuation is never invoked with the error. -/
theorem init_error_not_delivered :
    initModel envNone 0 oW7 = InitOutcome.thrown 0 ∧
    initErrDelivered (initModel envNone 0 oW7) = false := by decide

/-- Claim C7 (amended): if any factory creation among the `min` warm-up tasks
fails, `if (error) throw error` propagates it as an exception to the
constructor's caller — not to the constructor's continuation, which is never
invoked on failure — so the pool is never deemed ready; whenever the
continuation IS invoked, its error argument is null and the pool holds
exactly `min` available and no active resources. -/
theorem init_failure_aborts (env : Env) (now : Time) (o : Options) :
    ((∃ k, k < o.min ∧ env.create k = none) → (initModel env now o).isThrown = true) ∧
    (∀ (err : Option Nat) (s0 : PoolState),
        initModel env now o = InitOutcome.cbCalled err s0 →
        err = none ∧ availableCount s0 = o.min ∧ activeCount s0 = 0) := by
  constructor
  · rintro ⟨k, hk, hnone⟩
    apply initGo_fail env now o.min (PoolState.fresh o)
    refine ⟨k, hk, ?_⟩
    simpa [PoolState.fresh] using hnone
  · intro err s0 h
    obtain ⟨h1, h2, h3⟩ := initGo_cbCalled env now o.min (PoolState.fresh o) err s0 h
    refine ⟨h1, ?_, ?_⟩
    · simpa [availableCount, PoolState.fresh] using h2
    · simp [activeCount, h3, PoolState.fresh]

theorem init_failure_aborts_witness :
    (initModel envNone 0 oW7).isThrown = true :=
  (init_failure_aborts envNone 0 oW7).1 ⟨0, by decide, rfl⟩

theorem acquireCreate_state_max (env : Env) (s : PoolState) (cb : Nat) :
    (acquireCreate env s cb).state.max = s.max := by
  unfold acquireCreate
  split <;> rfl

theorem acquire_state_max (env : Env) (s : PoolState) (now : Time) (cb : Nat) :
    (acquireModel env s now cb).state.max = s.max := by
  unfold acquireModel
  split
  · rfl
  · split
    · split <;> rfl
    · split
      · split
        · rfl
        · exact acquireCreate_state_max env s cb
      · exact acquireCreate_state_max env s cb

theorem acquire_total_le (env : Env) (s : PoolState) (now : Time) (cb m : Nat)
    (hmax : s.max = some m) (hm : 0 < m) (h : totalCount s ≤ m) :
    totalCount (acquireModel env s now cb).state ≤ m := by
  by_cases hd : s.draining
  · simpa [acquireModel, hd] using h
  · rcases hav : s.available with _ | ⟨c, rest⟩
    · simp only [acquireModel, hd, if_false, Bool.false_eq_true, hav, hmax]
      split
      · simpa [totalCount, hav] using h
      · rename_i hguard
        have hlt : totalCount s < m := by
          rcases Nat.lt_or_ge (totalCount s) m with h1 | h1
          · exact h1
          · exact absurd ⟨hm, h1⟩ hguard
        unfold acquireCreate
        split
        · simpa [totalCount, hav] using h
        · simp only [totalCount] at hlt ⊢
          simp [hav] at hlt ⊢
          omega
    · have hts : totalCount s = rest.length + 1 + s.active.length := by
        simp [totalCount, hav]
      simp only [acquireModel, hd, if_false, Bool.false_eq_true, hav]
      split
      · have hdl : rest.dropLast.length = rest.length - 1 := List.length_dropLast rest
        simp only [totalCount]
        simp only [PoolState.mk.injEq] at *
        simp
        omega
      · simp [totalCount]
        omega

theorem releaseCore_state_max (env : Env) (s2 : PoolState) (c : Client)
    (cbOpt : Option Nat) (now : Time) :
    (releaseCore env s2 c cbOpt now).state.max = s2.max := by
  unfold releaseCore
  split
  · rfl
  · dsimp only
    split
    · exact acquire_state_max env _ now _
    · exact acquire_state_max env _ now _

theorem releaseCore_total_le (env : Env) (s2 : PoolState) (c : Client)
    (cbOpt : Option Nat) (now : Time) (m : Nat)
    (hmax : s2.max = some m) (hm : 0 < m) (h : totalCount s2 ≤ m) :
    totalCount (releaseCore env s2 c cbOpt now).state ≤ m := by
  unfold releaseCore
  split
  · exact h
  · rename_i w ws hw
    have happ : totalCount { s2 with waiting := ws } = totalCount s2 := by
      simp [totalCount]
    dsimp only
    split
    · exact acquire_total_le env _ now _ m (by simpa using hmax) hm (by simpa [happ] using h)
    · exact acquire_total_le env _ now _ m (by simpa using hmax) hm (by simpa [happ] using h)

theorem release_state_max (env : Env) (s : PoolState) (conn : Nat) (now : Time)
    (cbOpt : Option Nat) :
    (releaseModel env s conn now cbOpt).state.max = s.max := by
  unfold releaseModel
  split
  · rw [releaseCore_state_max]
    simp
  · rfl

theorem release_total_le (env : Env) (s : PoolState) (conn : Nat) (now : Time)
    (cbOpt : Option Nat) (m : Nat)
    (hmax : s.max = some m) (hm : 0 < m) (h : totalCount s ≤ m) :
    totalCount (releaseModel env s conn now cbOpt).state ≤ m := by
  unfold releaseModel
  split
  · rename_i hc
    have hmem : conn ∈ s.active := by simpa using hc
    have hlen : (s.active.erase conn).length = s.active.length - 1 :=
      List.length_erase_of_mem hmem
    have hpos : 0 < s.active.length := List.length_pos.mpr (List.ne_nil_of_mem hmem)
    apply releaseCore_total_le
    · simpa using hmax
    · exact hm
    · simp only [totalCount, addToPool_fst_available, addToPool_fst_active,
        List.length_append]
      simp only [totalCount] at h
      simp [hlen]
      omega
  · exact h

theorem stepOp_max (env : Env) (s : PoolState) (op : Op) :
    (stepOp env s op).max = s.max := by
  cases op with
  | acquire cb now => exact acquire_state_max env s now cb
  | release conn now => exact release_state_max env s conn now none

theorem stepOp_total_le (env : Env) (s : PoolState) (op : Op) (m : Nat)
    (hmax : s.max = some m) (hm : 0 < m) (h : totalCount s ≤ m) :
    totalCount (stepOp env s op) ≤ m := by
  cases op with
  | acquire cb now => exact acquire_total_le env s now cb m hmax hm h
  | release conn now => exact release_total_le env s conn now none m hmax hm h

theorem runOps_inv (env : Env) (m : Nat) (hm : 0 < m) :
    ∀ (ops : List Op) (s : PoolState), s.max = some m → totalCount s ≤ m →
      (runOps env s ops).max = some m ∧ totalCount (runOps env s ops) ≤ m := by
  intro ops
  induction ops with
  | nil => intro s h1 h2; exact ⟨h1, h2⟩
  | cons op rest ih =>
    intro s h1 h2
    have e : runOps env s (op :: rest) = runOps env (stepOp env s op) rest := rfl
    rw [e]
    exact ih (stepOp env s op) (by rw [stepOp_max]; exact h1)
      (stepOp_total_le env s op m h1 hm h2)

/-- Claim C3: with `max = m` set (and positive), `totalCount` never exceeds
`m` across any sequence of acquire and release operations; an acquire that
arrives with the available queue empty and `totalCount >= max` enqueues the
caller's continuation on the waiting queue and does nothing else — no reply
event, no crash, no factory creation, no new resource; and a pool constructed
with `min <= max` starts within the bound. -/
theorem pool_respects_max (env : Env) (m : Nat) (hm : 0 < m) :
    (∀ (s : PoolState) (ops : List Op), s.max = some m → totalCount s ≤ m →
        totalCount (runOps env s ops) ≤ m) ∧
    (∀ (s : PoolState) (now : Time) (cb : Nat),
        s.max = some m → s.draining = false → s.available = [] →
        m ≤ totalCount s →
        acquireModel env s now cb = ⟨{ s with waiting := s.waiting ++ [cb] }, [], false⟩) ∧
    (∀ (now : Time) (o : Options) (err : Option Nat) (s0 : PoolState),
        o.max = some m → o.min ≤ m →
        initModel env now o = InitOutcome.cbCalled err s0 →
        totalCount s0 ≤ m) := by
  refine ⟨?_, ?_, ?_⟩
  · intro s ops h1 h2
    exact (runOps_inv env m hm ops s h1 h2).2
  · intro s now cb hmax hd hav htot
    simp [acquireModel, hd, hav, hmax, hm, htot]
  · intro now o err s0 hmax hminle h
    obtain ⟨h1, h2, h3⟩ := initGo_cbCalled env now o.min (PoolState.fresh o) err s0 h
    simp [PoolState.fresh] at h2 h3
    have h4 : s0.active.length = 0 := by rw [h3]; rfl
    simp only [totalCount]
    omega

theorem pool_respects_max_witness :
    totalCount (runOps envNone sW3 [Op.acquire 7 0]) ≤ 1 ∧
    acquireModel envNone sW3 0 7 = ⟨{ sW3 with waiting := [7] }, [], false⟩ :=
  ⟨(pool_respects_max envNone 1 (by decide)).1 sW3 [Op.acquire 7 0] rfl (by decide),
   (pool_respects_max envNone 1 (by decide)).2.1 sW3 0 7 rfl rfl rfl (by decide)⟩

theorem acquire_cons_fresh (env : Env) (t : PoolState) (now : Time) (cb : Nat)
    (c : Client) (rest : List Client)
    (hd : t.draining = false) (hav : t.available = c :: rest)
    (hfresh : checkTimeout rest.length t.min c now = false) :
    acquireModel env t now cb
      = ⟨{ t with available := rest, active := t.active ++ [c.connection] },
          [Event.dispatched cb c.connection], false⟩ := by
  simp [acquireModel, hd, hav, hfresh]

theorem acquire_cons_stale (env : Env) (t : PoolState) (now : Time) (cb : Nat)
    (c : Client) (rest : List Client)
    (hd : t.draining = false) (hav : t.available = c :: rest)
    (hstale : checkTimeout rest.length t.min c now = true) :
    acquireModel env t now cb
      = ⟨{ t with available := rest.dropLast }, [Event.destroyedConn c.connection], true⟩ := by
  simp [acquireModel, hd, hav, hstale]

theorem releaseModel_eq_core (env : Env) (s : PoolState) (conn : Nat) (now : Time)
    (cbOpt : Option Nat) (ha : conn ∈ s.active) :
    releaseModel env s conn now cbOpt
      = releaseCore env (addToPool { s with active := s.active.erase conn } conn now).1
          ⟨conn, now + s.idleTimeout, s.clientId⟩ cbOpt now := by
  unfold releaseModel
  rw [if_pos (by simpa using ha)]
  dsimp only
  rw [addToPool_snd]

theorem releaseCore_cons (env : Env) (t : PoolState) (c : Client) (cbOpt : Option Nat)
    (now : Time) (w : Nat) (ws : List Nat) (hw : t.waiting = w :: ws) :
    releaseCore env t c cbOpt now
      = (if (acquireModel env { t with waiting := ws } now w).crashed then
          acquireModel env { t with waiting := ws } now w
        else
          ⟨(acquireModel env { t with waiting := ws } now w).state,
            (acquireModel env { t with waiting := ws } now w).events ++ releaseCbEvents cbOpt c,
            false⟩) := by
  unfold releaseCore
  rw [hw]


/-- Claim C5: releasing a currently-active connection while the waiting queue
is non-empty moves it from active to the back of the available queue as a
wrapper with the fresh expiry `now + idleTimeout`, then pops exactly one
waiter — the oldest — and re-invokes `acquire` on its behalf before any other
caller can observe the released resource: the remaining waiting queue is the
old tail, every caller-directed event of the whole operation targets that
oldest waiter (or release's own optional callback), and in particular when
the available queue was empty the oldest waiter is dispatched exactly the
released connection. -/
theorem release_serves_oldest_waiter (env : Env) (s : PoolState) (conn : Nat)
    (now : Time) (cbOpt : Option Nat) (w : Nat) (ws : List Nat)
    (hd : s.draining = false) (ha : conn ∈ s.active) (hw : s.waiting = w :: ws) :
    (releaseModel env s conn now cbOpt).state.waiting = ws ∧
    (∀ e ∈ (releaseModel env s conn now cbOpt).events,
        eventTarget e = none ∨ eventTarget e = some w ∨ eventTarget e = cbOpt) ∧
    (s.available = [] →
        (releaseModel env s conn now cbOpt).state.available = [] ∧
        (releaseModel env s conn now cbOpt).state.active = s.active.erase conn ++ [conn] ∧
        (releaseModel env s conn now cbOpt).events
          = Event.dispatched w conn
              :: releaseCbEvents cbOpt ⟨conn, now + s.idleTimeout, s.clientId⟩ ∧
        (releaseModel env s conn now cbOpt).crashed = false) ∧
    (∀ (c : Client) (rest2 : List Client), s.available = c :: rest2 →
        checkTimeout (rest2.length + 1) s.min c now = false →
        (releaseModel env s conn now cbOpt).state.available
          = rest2 ++ [⟨conn, now + s.idleTimeout, s.clientId⟩] ∧
        (releaseModel env s conn now cbOpt).state.active
          = s.active.erase conn ++ [c.connection] ∧
        (releaseModel env s conn now cbOpt).events
          = Event.dispatched w c.connection
              :: releaseCbEvents cbOpt ⟨conn, now + s.idleTimeout, s.clientId⟩ ∧
        (releaseModel env s conn now cbOpt).crashed = false) := by
  rw [releaseModel_eq_core env s conn now cbOpt ha]
  generalize hT : (addToPool { s with active := s.active.erase conn } conn now).1 = t
  have htw : t.waiting = w :: ws := by rw [← hT]; simpa using hw
  have htd : t.draining = false := by rw [← hT]; simpa using hd
  have htav : t.available
      = s.available ++ [⟨conn, now + s.idleTimeout, s.clientId⟩] := by rw [← hT]; simp
  have htac : t.active = s.active.erase conn := by rw [← hT]; simp
  have htmin : t.min = s.min := by rw [← hT]; simp
  rw [releaseCore_cons env t _ cbOpt now w ws htw]
  generalize hU : ({ t with waiting := ws } : PoolState) = u
  have huw : u.waiting = ws := by rw [← hU]
  have hud : u.draining = false := by rw [← hU]; simpa using htd
  have huav : u.available
      = s.available ++ [⟨conn, now + s.idleTimeout, s.clientId⟩] := by
    rw [← hU]; simpa using htav
  have huac : u.active = s.active.erase conn := by rw [← hU]; simpa using htac
  have humin : u.min = s.min := by rw [← hU]; simpa using htmin
  rcases hav : s.available with _ | ⟨a, as⟩
  · -- the available queue was empty: the waiter receives the released connection
    rw [hav] at huav
    rw [List.nil_append] at huav
    have hfresh : checkTimeout (List.length ([] : List Client)) u.min
        ⟨conn, now + s.idleTimeout, s.clientId⟩ now = false := by
      simp [checkTimeout]
    rw [acquire_cons_fresh env u now w _ [] hud huav hfresh]
    refine ⟨by simpa using huw, ?_, ?_, ?_⟩
    · intro e he
      simp only [OpResult.events] at he
      rcases List.mem_cons.mp (by simpa using he) with rfl | he2
      · simp [eventTarget]
      · rcases cbOpt with _ | cb
        · simp [releaseCbEvents] at he2
        · simp [releaseCbEvents] at he2
          subst he2
          simp [eventTarget]
    · intro _
      exact ⟨by simp, by simpa using huac, by simp, by simp⟩
    · intro c rest2 habs
      cases habs
  · -- the available queue was non-empty: the waiter gets the head client
    rw [hav] at huav
    rw [List.cons_append] at huav
    cases hst : checkTimeout
        ((as ++ [(⟨conn, now + s.idleTimeout, s.clientId⟩ : Client)]).length)
        u.min a now with
    | true =>
      rw [acquire_cons_stale env u now w a _ hud huav hst]
      refine ⟨by simpa using huw, ?_, ?_, ?_⟩
      · intro e he
        have he2 : e = Event.destroyedConn a.connection := by simpa using he
        subst he2
        simp [eventTarget]
      · intro habs
        cases habs
      · intro c rest2 heq hfr
        injection heq with h1 h2
        subst h1
        subst h2
        rw [show (as ++ [(⟨conn, now + s.idleTimeout, s.clientId⟩ : Client)]).length
            = as.length + 1 by simp, humin] at hst
        rw [hst] at hfr
        cases hfr
    | false =>
      rw [acquire_cons_fresh env u now w a _ hud huav hst]
      refine ⟨by simpa using huw, ?_, ?_, ?_⟩
      · intro e he
        rcases List.mem_cons.mp (by simpa using he) with rfl | he2
        · simp [eventTarget]
        · rcases cbOpt with _ | cb
          · simp [releaseCbEvents] at he2
          · simp [releaseCbEvents] at he2
            subst he2
            simp [eventTarget]
      · intro habs
        cases habs
      · intro c rest2 heq hfr
        injection heq with h1 h2
        subst h1
        subst h2
        exact ⟨by simp, by simpa using huac, by simp, by simp⟩

theorem release_serves_oldest_waiter_witness :
    (releaseModel envNone sW5 9 0 none).state.waiting = [22] ∧
    (releaseModel envNone sW5 9 0 none).state.available = [] ∧
    (releaseModel envNone sW5 9 0 none).events = [Event.dispatched 21 9] ∧
    (releaseModel envNone sW5 9 0 none).crashed = false := by
  have h := release_serves_oldest_waiter envNone sW5 9 0 none 21 [22] rfl (by decide) rfl
  obtain ⟨h1, h2, h3, h4⟩ := h.2.2.1 rfl
  exact ⟨h.1, h1, h3, h4⟩
